import Mathlib

/-!
Verification of the MutAnt core (mutant-lib) against its specification.

The development shallowly embeds the master-index data model and the
operations of `src/mutant-lib/src/index/query.rs`,
`src/mutant-lib/src/data/ops.rs` and
`src/mutant-lib/src/network/adapter.rs` as pure Lean functions.
Machine integers (`usize`, `u64`, `u32`) are modelled as `Nat`
(no arithmetic in these functions can overflow-wrap in a way the
claims depend on), byte payloads as `List Nat`, and the async side
effects (pad lifecycle manager, storage manager, callbacks) as
explicit function-valued parameters together with state passing of
the `MasterIndex`.
-/

set_option maxHeartbeats 1000000

namespace MutAnt

instance {e a : Type} [DecidableEq e] [DecidableEq a] : DecidableEq (Except e a)
  | .ok x, .ok y =>
      match decEq x y with
      | isTrue h => isTrue (by rw [h])
      | isFalse h => isFalse fun hh => h (Except.ok.inj hh)
  | .error x, .error y =>
      match decEq x y with
      | isTrue h => isTrue (by rw [h])
      | isFalse h => isFalse fun hh => h (Except.error.inj hh)
  | .ok _, .error _ => isFalse fun hh => Except.noConfusion hh
  | .error _, .ok _ => isFalse fun hh => Except.noConfusion hh

/-- Scratchpad address (opaque 32+ byte value, byte-exact equality); modelled as `Nat`. -/
abbrev Addr := Nat

/-- Secret key bytes of a pad; modelled opaquely as `Nat`. -/
abbrev KeyBytes := Nat

/-- Per-pad, per-key state machine (`PadStatus` in `index/structure.rs`,
whose file is absent from the snapshot; the four variants are fixed by the
spec and by the uses in `index/query.rs`). -/
inductive PadStatus where
  | Generated
  | Allocated
  | Written
  | Confirmed
  deriving DecidableEq, Repr

/-- `PadInfo`: address plus chunk index plus status.  `data/ops.rs` builds
`PadInfo` literals with only `address` and `chunk_index` while
`index/query.rs` reads a `status` field; `index/structure.rs` is absent, so
we keep all three fields (spec data model) and let the `ops.rs` embedding
fill `status` with `Generated` (spec 4.4 step 5). -/
structure PadInfo where
  address : Addr
  chunk_index : Nat
  status : PadStatus
  deriving DecidableEq, Repr

/-- `KeyInfo` record of the master index (timestamps modelled as `Nat`). -/
structure KeyInfo where
  pads : List PadInfo
  data_size : Nat
  modified : Nat
  is_complete : Bool
  populated_pads_count : Nat
  deriving DecidableEq, Repr

/-- The `MasterIndex`.  The `HashMap<String, KeyInfo>` is modelled as an
association list without duplicate-key semantics surprises: `mapInsert`
replaces the first binding, `mapLookup` finds the first binding. -/
structure MasterIndex where
  index : List (String × KeyInfo)
  free_pads : List (Addr × KeyBytes × Nat)
  pending_verification_pads : List (Addr × KeyBytes)
  scratchpad_size : Nat
  deriving DecidableEq, Repr

/-- Association-list lookup (model of `HashMap::get`). -/
def mapLookup : List (String × KeyInfo) → String → Option KeyInfo
  | [], _ => none
  | e :: es, k => if e.1 = k then some e.2 else mapLookup es k

/-- Association-list insert-or-replace (model of `HashMap::insert`). -/
def mapInsert : List (String × KeyInfo) → String → KeyInfo → List (String × KeyInfo)
  | [], k, v => [(k, v)]
  | e :: es, k, v => if e.1 = k then (k, v) :: es else e :: mapInsert es k v

/-- Association-list removal (model of `HashMap::remove`). -/
def mapRemove : List (String × KeyInfo) → String → List (String × KeyInfo)
  | [], _ => []
  | e :: es, k => if e.1 = k then es else e :: mapRemove es k

/-- Errors of `index/error.rs` used by `index/query.rs`. -/
inductive IndexError where
  | InconsistentState (msg : String)
  | KeyNotFound (key : String)
  deriving DecidableEq, Repr

/-- `get_key_info_internal` (`index/query.rs`). -/
def get_key_info_internal (index : MasterIndex) (key : String) : Option KeyInfo :=
  mapLookup index.index key

/-- `insert_key_info_internal` (`index/query.rs`): inserts or replaces; the
Rust function unconditionally returns `Ok(())`. -/
def insert_key_info_internal (index : MasterIndex) (key : String) (info : KeyInfo) :
    Except IndexError Unit × MasterIndex :=
  (.ok (), { index with index := mapInsert index.index key info })

/-- `remove_key_info_internal` (`index/query.rs`): removes the binding and
returns the prior `KeyInfo` when present. -/
def remove_key_info_internal (index : MasterIndex) (key : String) :
    Option KeyInfo × MasterIndex :=
  (mapLookup index.index key, { index with index := mapRemove index.index key })

/-- `add_free_pad_with_counter_internal` (`index/query.rs`): appends unless
the address is already on the free list (then the duplicate is dropped). -/
def add_free_pad_with_counter_internal (index : MasterIndex) (address : Addr)
    (key_bytes : KeyBytes) (counter : Nat) : Except IndexError Unit × MasterIndex :=
  if index.free_pads.any fun t => t.1 = address then
    (.ok (), index)
  else
    (.ok (), { index with free_pads := index.free_pads ++ [(address, key_bytes, counter)] })

/-- `add_free_pads_with_counters_internal` (`index/query.rs`): batch form,
checking each address against the evolving free list. -/
def add_free_pads_with_counters_internal (index : MasterIndex)
    (pads : List (Addr × KeyBytes × Nat)) : Except IndexError Unit × MasterIndex :=
  (.ok (), pads.foldl
    (fun idx p =>
      if idx.free_pads.any fun t => t.1 = p.1 then idx
      else { idx with free_pads := idx.free_pads ++ [p] })
    index)

/-- `add_pending_verification_pads_internal` (`index/query.rs`): batch append
to the pending list, deduplicated by address against the evolving list. -/
def add_pending_verification_pads_internal (index : MasterIndex)
    (pads : List (Addr × KeyBytes)) : Except IndexError Unit × MasterIndex :=
  (.ok (), pads.foldl
    (fun idx p =>
      if idx.pending_verification_pads.any fun t => t.1 = p.1 then idx
      else { idx with pending_verification_pads := idx.pending_verification_pads ++ [p] })
    index)

/-- `add_pending_pads_internal` (`index/query.rs`, lines 349-360): extends the
pending-verification list with the given pads, with no duplicate check. -/
def add_pending_pads_internal (index : MasterIndex) (pads : List (Addr × KeyBytes)) :
    Except IndexError Unit × MasterIndex :=
  (.ok (), { index with
    pending_verification_pads := index.pending_verification_pads ++ pads })

/-- Sets the status of the first pad with the given address
(model of `iter_mut().find(...)` followed by the field assignment). -/
def setPadStatusFirst : List PadInfo → Addr → PadStatus → List PadInfo
  | [], _, _ => []
  | p :: ps, a, s =>
      if p.address = a then { p with status := s } :: ps
      else p :: setPadStatusFirst ps a s

/-- `update_pad_status_internal` (`index/query.rs`, lines 292-322): sets the
requested status on the first matching pad; `InconsistentState` when the pad
is not in the key, `KeyNotFound` when the key is absent.  (The source message
wraps names in braces of `format!`; the embedded text drops the addresses.) -/
def update_pad_status_internal (index : MasterIndex) (key : String)
    (pad_address : Addr) (new_status : PadStatus) : Except IndexError Unit × MasterIndex :=
  match mapLookup index.index key with
  | some key_info =>
      if key_info.pads.any fun p => p.address = pad_address then
        (.ok (), { index with index := (mapInsert index.index key
          { key_info with pads := setPadStatusFirst key_info.pads pad_address new_status }) })
      else
        (.error (.InconsistentState ("Pad not found in key " ++ key)), index)
  | none => (.error (.KeyNotFound key), index)

/-- `mark_key_complete_internal` (`index/query.rs`). -/
def mark_key_complete_internal (index : MasterIndex) (key : String) :
    Except IndexError Unit × MasterIndex :=
  match mapLookup index.index key with
  | some key_info =>
      (.ok (), { index with index := (mapInsert index.index key
        { key_info with is_complete := true }) })
  | none => (.error (.KeyNotFound key), index)

/-- Modelled from the spec: `DEFAULT_SCRATCHPAD_SIZE` of `index/structure.rs`,
which is absent from the snapshot.  The spec only requires the pad size to be
positive (invariant I5); the concrete value is irrelevant to every claim
except that it is nonzero. -/
def DEFAULT_SCRATCHPAD_SIZE : Nat := 4194304

/-- `reset_index_internal` (`index/query.rs`, lines 339-346): replaces the
index with the default state, keeping `max` of the existing size and the
default size. -/
def reset_index_internal (index : MasterIndex) : MasterIndex :=
  { index := []
    free_pads := []
    pending_verification_pads := []
    scratchpad_size := max index.scratchpad_size DEFAULT_SCRATCHPAD_SIZE }

theorem mapLookup_mapInsert (m : List (String × KeyInfo)) (k : String) (v : KeyInfo) :
    mapLookup (mapInsert m k v) k = some v := by
  induction m with
  | nil => simp [mapInsert, mapLookup]
  | cons e es ih =>
      by_cases h : e.1 = k
      · simp [mapInsert, mapLookup, h]
      · simp [mapInsert, mapLookup, h, ih]

/-- Errors of `data/error.rs` (file absent from the snapshot) in the shape
`data/ops.rs` and `data/integration_tests.rs` use them; `KeyAlreadyExists`
and `UploadIncomplete` are the corresponding variants of the crate-level
`Error` (`src/mutant-lib/src/error.rs`), included so the spec sentences
naming them are statable.  `Storage` carries its network error opaquely. -/
inductive DataError where
  | KeyNotFound (key : String)
  | KeyAlreadyExists (key : String)
  | UploadIncomplete (key : String)
  | InternalError (msg : String)
  | OperationCancelled
  | Storage (e : Nat)
  | InsufficientFreePads (msg : String)
  | ChunkingError (msg : String)
  | ReassemblyError (msg : String)
  deriving DecidableEq, Repr

/-- `PutEvent` variants emitted by `data/ops.rs` (the protocol crate with the
full event type is external; spec 4.8). -/
inductive PutEvent where
  | Starting (total_chunks : Nat)
  | ChunkWritten (chunk_index : Nat)
  | Complete
  deriving DecidableEq, Repr

/-- `GetEvent` variants emitted by `data/ops.rs` (spec 4.8). -/
inductive GetEvent where
  | Starting (total_chunks : Nat)
  | ChunkFetched (chunk_index : Nat)
  | Reassembling
  | Complete
  deriving DecidableEq, Repr

/-- The error `data/ops.rs` builds when a callback invocation itself fails
(`map_err` into `DataError::InternalError`). -/
def cbErr (e : String) : DataError :=
  .InternalError ("Callback invocation failed: " ++ e)

/-- Modelled from the spec: the chunk splitter of `data/chunking.rs`, whose
file is absent from the snapshot (spec 4.1 and the pinned tests in
`data/integration_tests.rs`).  Successive take/drop of `k` bytes; the fuel
argument (instantiated with `data.length` by `chunk_data`) makes the
recursion structural. -/
def chunksOfF : Nat → Nat → List Nat → List (List Nat)
  | _, _, [] => []
  | 0, _, _ :: _ => []
  | fuel + 1, k, x :: xs => (x :: xs).take k :: chunksOfF fuel k ((x :: xs).drop k)

/-- Modelled from the spec: `chunk_data` of `data/chunking.rs` (spec 4.1;
tests `test_chunking_basic`, `test_chunking_zero_size`,
`test_chunking_empty_data`). -/
def chunk_data (data : List Nat) (chunk_size : Nat) : Except DataError (List (List Nat)) :=
  if chunk_size = 0 then .error (.ChunkingError "Chunk size cannot be zero")
  else .ok (chunksOfF data.length chunk_size data)

/-- Modelled from the spec: the per-slot walk of `reassemble_data`
(spec 4.1): any missing slot fails, otherwise the chunks are concatenated
in order. -/
def reassembleChunks : List (Option (List Nat)) → Nat → Except DataError (List Nat)
  | [], _ => .ok []
  | some c :: rest, i => (reassembleChunks rest (i + 1)).map (fun t => c ++ t)
  | none :: _, i => .error (.ReassemblyError ("Missing chunk at index " ++ toString i))

/-- Modelled from the spec: `reassemble_data` of `data/chunking.rs`
(spec 4.1): concatenation must match the expected size. -/
def reassemble_data (chunks : List (Option (List Nat))) (expected_size : Nat) :
    Except DataError (List Nat) :=
  match reassembleChunks chunks 0 with
  | .ok bytes =>
      if bytes.length = expected_size then .ok bytes
      else .error (.ReassemblyError "Reassembled data size does not match expected size")
  | .error e => .error e

/-- The dependencies `store_op` consumes (`DataManagerDependencies`): the pad
lifecycle manager and storage manager are external capabilities, modelled as
function-valued fields; `acquire_pads` may transform the index (it draws on
the free list), `release_pads` returns pads to it, `write_pad_data` is the
per-pad network write outcome, `put_callback` the progress callback
(`Err` of the Rust callback modelled as `.error msg`), and `now` the
timestamp `Utc::now()` returns. -/
structure StoreDeps where
  acquire_pads : Nat → MasterIndex → List (Addr × KeyBytes) × MasterIndex
  release_pads : List Addr → MasterIndex → MasterIndex
  write_pad_data : Addr → List Nat → Except Nat Unit
  put_callback : PutEvent → Except String Bool
  now : Nat

/-- Address of the i-th acquired pad (`acquired_pads[i]`; only evaluated
under the bounds check of `store_op`). -/
def acquiredAddr (acquired : List (Addr × KeyBytes)) (i : Nat) : Addr :=
  (acquired.getD i (0, 0)).1

/-- The concurrent-write drain loop of `store_op` (`data/ops.rs` lines
141-197).  `order` is the completion order of the `FuturesUnordered` set;
each completion is checked, counted, reported to the callback, and on
failure or cancellation all acquired pads are released. -/
def store_write_loop (deps : StoreDeps) (acquired : List (Addr × KeyBytes))
    (pad_info_list : List PadInfo) (chunks : List (List Nat)) :
    List Nat → Nat → MasterIndex → Except DataError Nat × MasterIndex
  | [], populated, index => (.ok populated, index)
  | i :: rest, populated, index =>
      match deps.write_pad_data (acquiredAddr acquired i) (chunks.getD i []) with
      | .ok _ =>
          match deps.put_callback (.ChunkWritten i) with
          | .error e => (.error (cbErr e), index)
          | .ok false =>
              (.error .OperationCancelled,
               deps.release_pads (pad_info_list.map PadInfo.address) index)
          | .ok true =>
              store_write_loop deps acquired pad_info_list chunks rest (populated + 1) index
      | .error e =>
          (.error (.Storage e),
           deps.release_pads (pad_info_list.map PadInfo.address) index)

/-- `store_op` (`data/ops.rs` lines 28-230).  `get_scratchpad_size` of the
index manager (file absent) returns the master index scratchpad size.
`order` is the completion order of the concurrent chunk writes. -/
def store_op (deps : StoreDeps) (index0 : MasterIndex) (user_key : String)
    (data_bytes : List Nat) (order : List Nat) : Except DataError Unit × MasterIndex :=
  let data_size := data_bytes.length
  let chunk_size := index0.scratchpad_size
  match chunk_data data_bytes chunk_size with
  | .error e => (.error e, index0)
  | .ok chunks =>
    let num_chunks := chunks.length
    match deps.put_callback (.Starting num_chunks) with
    | .error e => (.error (cbErr e), index0)
    | .ok false => (.error .OperationCancelled, index0)
    | .ok true =>
      if num_chunks = 0 then
        let key_info : KeyInfo :=
          { pads := [], data_size := data_size, modified := deps.now
            is_complete := true, populated_pads_count := 0 }
        let index1 := (insert_key_info_internal index0 user_key key_info).2
        match deps.put_callback .Complete with
        | .error e => (.error (cbErr e), index1)
        | .ok false => (.error .OperationCancelled, index1)
        | .ok true => (.ok (), index1)
      else
        let ap := deps.acquire_pads num_chunks index0
        let acquired := ap.1
        let index1 := ap.2
        if acquired.length < num_chunks then
          (.error (.InsufficientFreePads ("Needed " ++ toString num_chunks
              ++ " pads, but only " ++ toString acquired.length
              ++ " were available/acquired")),
           deps.release_pads (acquired.map Prod.fst) index1)
        else
          let pad_info_list := (List.range num_chunks).map fun i =>
            { address := acquiredAddr acquired i, chunk_index := i
              status := PadStatus.Generated : PadInfo }
          match store_write_loop deps acquired pad_info_list chunks order 0 index1 with
          | (.error e, index2) => (.error e, index2)
          | (.ok populated, index2) =>
            let key_info : KeyInfo :=
              { pads := pad_info_list, data_size := data_size, modified := deps.now
                is_complete := true, populated_pads_count := populated }
            let index3 := (insert_key_info_internal index2 user_key key_info).2
            match deps.put_callback .Complete with
            | .error e => (.error (cbErr e), index3)
            | .ok false => (.error .OperationCancelled, index3)
            | .ok true => (.ok (), index3)

/-- The dependencies `fetch_op` consumes: the per-address storage read and
the progress callback. -/
structure FetchDeps where
  read_pad_data : Addr → Except Nat (List Nat)
  get_callback : GetEvent → Except String Bool

/-- Insertion step for the `sort_by_key(chunk_index)` model. -/
def insertByChunkIndex (p : PadInfo) : List PadInfo → List PadInfo
  | [] => [p]
  | q :: qs =>
      if p.chunk_index ≤ q.chunk_index then p :: q :: qs
      else q :: insertByChunkIndex p qs

/-- Model of `sorted_pads.sort_by_key(|p| p.chunk_index)` in `fetch_op`. -/
def sortByChunkIndex : List PadInfo → List PadInfo
  | [] => []
  | p :: ps => insertByChunkIndex p (sortByChunkIndex ps)

/-- The concurrent-fetch drain loop of `fetch_op` (`data/ops.rs` lines
312-352): each completion is slotted by its `chunk_index` into the pre-sized
vector after a bounds check, counted, and reported to the callback.  `order`
is the completion order over the sorted pad list.  The loop never touches
the master index. -/
def fetch_loop (deps : FetchDeps) (sorted_pads : List PadInfo) :
    List Nat → List (Option (List Nat)) → Nat →
    Except DataError (List (Option (List Nat)) × Nat)
  | [], fetched, count => .ok (fetched, count)
  | j :: rest, fetched, count =>
      let pad := sorted_pads.getD j { address := 0, chunk_index := 0, status := .Generated }
      match deps.read_pad_data pad.address with
      | .ok data =>
          if pad.chunk_index < fetched.length then
            match deps.get_callback (.ChunkFetched pad.chunk_index) with
            | .error e => .error (cbErr e)
            | .ok false => .error .OperationCancelled
            | .ok true =>
                fetch_loop deps sorted_pads rest
                  (fetched.set pad.chunk_index (some data)) (count + 1)
          else
            .error (.InternalError ("Invalid chunk index "
              ++ toString pad.chunk_index ++ " encountered"))
      | .error e => .error (.Storage e)

/-- `fetch_op` (`data/ops.rs` lines 234-386).  The only index access is the
read-only `get_key_info`; every exit hands back the state it was given.  (The
source of the incomplete-data message wraps the key in single quotes, which
the embedding drops.) -/
def fetch_op (deps : FetchDeps) (index0 : MasterIndex) (user_key : String)
    (order : List Nat) : Except DataError (List Nat) × MasterIndex :=
  match get_key_info_internal index0 user_key with
  | none => (.error (.KeyNotFound user_key), index0)
  | some key_info =>
    if key_info.is_complete = false then
      (.error (.InternalError ("Data for key " ++ user_key
          ++ " is marked as incomplete")), index0)
    else
      let num_chunks := key_info.pads.length
      match deps.get_callback (.Starting num_chunks) with
      | .error e => (.error (cbErr e), index0)
      | .ok false => (.error .OperationCancelled, index0)
      | .ok true =>
        if num_chunks = 0 then
          match deps.get_callback .Complete with
          | .error e => (.error (cbErr e), index0)
          | .ok false => (.error .OperationCancelled, index0)
          | .ok true => (.ok [], index0)
        else
          let sorted_pads := sortByChunkIndex key_info.pads
          match fetch_loop deps sorted_pads order (List.replicate num_chunks none) 0 with
          | .error e => (.error e, index0)
          | .ok (fetched, count) =>
            if count ≠ num_chunks then
              (.error (.InternalError
                "Mismatch between expected and fetched chunk count"), index0)
            else
              match deps.get_callback .Reassembling with
              | .error e => (.error (cbErr e), index0)
              | .ok false => (.error .OperationCancelled, index0)
              | .ok true =>
                match reassemble_data fetched key_info.data_size with
                | .error e => (.error e, index0)
                | .ok bytes =>
                  match deps.get_callback .Complete with
                  | .error e => (.error (cbErr e), index0)
                  | .ok false => (.error .OperationCancelled, index0)
                  | .ok true => (.ok bytes, index0)

/-- `remove_op` (`data/ops.rs` lines 390-431): removes the `KeyInfo` and
returns `Ok` whether or not the key existed.  The source explicitly does
NOT release the removed pads to the free list (its own warning: pad release
during remove is not fully implemented, keys are not stored with KeyInfo),
so the embedding touches nothing but the key map. -/
def remove_op (index0 : MasterIndex) (user_key : String) :
    Except DataError Unit × MasterIndex :=
  let rm := remove_key_info_internal index0 user_key
  match rm.1 with
  | some _ => (.ok (), rm.2)
  | none => (.ok (), rm.2)

/-- Errors of `network/error.rs` (file absent from the snapshot), with the
variants the snapshot itself uses: `wallet.rs` builds `NetworkInitError`,
`InvalidKeyInput` and `WalletError`; `adapter.rs` builds `InternalError`;
the network integration tests match `InconsistentState`. -/
inductive NetworkError where
  | NetworkInitError (msg : String)
  | InvalidKeyInput (msg : String)
  | WalletError (msg : String)
  | InternalError (msg : String)
  | InconsistentState (msg : String)
  deriving DecidableEq, Repr

/-- The network outcomes `put_raw` consumes: the result of the fallible
`get_or_init_client` step (`adapter.rs` line 120, whose error propagates
through the `?` operator and may be any `NetworkError`), of
`scratchpad_create` (its address on success, its error string on failure)
and of `scratchpad_update`. -/
structure NetDeps where
  get_or_init_client : Except NetworkError Unit
  scratchpad_create : Except String Addr
  scratchpad_update : Except String Unit

/-- `ScratchpadAddress::new(key.public_key())`: address derivation from the
secret key, modelled as the identity on the opaque key value. -/
def derive_address (key : KeyBytes) : Addr := key

/-- Model of `str::contains` used on the create error message. -/
def strContainsSub (s pat : String) : Bool :=
  s.data.tails.any fun t => pat.data.isPrefixOf t

/-- `put_raw` (`network/adapter.rs` lines 114-184): first the fallible
client initialization, then always attempts create; when create fails with
an error containing "already exists" it falls back to `scratchpad_update`
and reports success if the update succeeds.  The signature takes no caller
status hint, although the in-repo tests (`network/integration_tests.rs`)
call `put_raw` with a `PadStatus` hint and expect `InconsistentState` for
create-on-existing: the embedding is the `adapter.rs` version. -/
def put_raw (deps : NetDeps) (key : KeyBytes) : Except NetworkError Addr :=
  match deps.get_or_init_client with
  | .error e => .error e
  | .ok _ =>
      let address := derive_address key
      match deps.scratchpad_create with
      | .ok _ => .ok address
      | .error create_err =>
          if strContainsSub create_err "already exists" then
            match deps.scratchpad_update with
            | .ok _ => .ok address
            | .error update_err =>
                .error (.InternalError ("Create failed (" ++ create_err
                  ++ "), then update failed: " ++ update_err))
          else
            .error (.InternalError ("Failed to create scratchpad: " ++ create_err))

/-! Concrete fixtures used by the witnesses and counterexamples. -/

/-- A stored key with one confirmed pad at address 5. -/
def kiOld : KeyInfo :=
  { pads := [{ address := 5, chunk_index := 0, status := .Confirmed }]
    data_size := 1, modified := 0, is_complete := true, populated_pads_count := 1 }

/-- An index already holding user key "k" (bound to `kiOld`). -/
def idxWithK : MasterIndex :=
  { index := [("k", kiOld)], free_pads := [], pending_verification_pads := []
    scratchpad_size := 4 }

/-- An empty index with pad size 4. -/
def idxEmpty : MasterIndex :=
  { index := [], free_pads := [], pending_verification_pads := []
    scratchpad_size := 4 }

/-- An index whose key "k" has `is_complete = false`. -/
def idxIncomplete : MasterIndex :=
  { index := [("k",
      { pads := [{ address := 1, chunk_index := 0, status := .Written }]
        data_size := 4, modified := 0, is_complete := false
        populated_pads_count := 0 })]
    free_pads := [], pending_verification_pads := [], scratchpad_size := 4 }

/-- An index whose address 1 is already both on the free list and on the
pending-verification list. -/
def idxBoth : MasterIndex :=
  { index := [], free_pads := [(1, 9, 0)], pending_verification_pads := [(1, 10)]
    scratchpad_size := 4 }

/-- Store dependencies where everything succeeds: acquisition mints fresh
addresses 100, 101, ..., writes succeed, callbacks continue. -/
def depsOk : StoreDeps :=
  { acquire_pads := fun n idx => ((List.range n).map fun i => (100 + i, 200 + i), idx)
    release_pads := fun _ idx => idx
    write_pad_data := fun _ _ => .ok ()
    put_callback := fun _ => .ok true
    now := 7 }

/-- Fetch dependencies where every read returns the same four bytes and
callbacks continue. -/
def fdepsOk : FetchDeps :=
  { read_pad_data := fun _ => .ok [1, 2, 3, 4]
    get_callback := fun _ => .ok true }

/-- Network outcomes for a pad that already exists: client initialization
succeeds, create is refused with an already-exists error and update
succeeds. -/
def netDepsExists : NetDeps :=
  { get_or_init_client := .ok ()
    scratchpad_create := .error "record already exists"
    scratchpad_update := .ok () }

/-! C2 -/

/-- C2: the claim says `remove_op` moves every pad of the removed `KeyInfo`
into `free_pads`; the code only deletes the `KeyInfo` (its own warning says
pad release is not implemented).  At the failing input — an index holding
key "k" with one pad at address 5 and an empty free list — the remove
succeeds, yet `free_pads` stays empty and address 5 is gone from every
`KeyInfo`: the address leaks. -/
theorem remove_op_does_not_release_pads :
    (remove_op idxWithK "k").1 = .ok ()
    ∧ (remove_op idxWithK "k").2.free_pads = []
    ∧ get_key_info_internal (remove_op idxWithK "k").2 "k" = none
    ∧ (remove_op idxWithK "k").2.index = [] := by
  decide

/-! C4 -/

/-- C4 counterexample: fetching the incomplete key "k" fails with
`InternalError` whose message says the data is marked as incomplete — not
with the `UploadIncomplete` error the claim names. -/
theorem fetch_op_incomplete_internal_error_example :
    (fetch_op fdepsOk idxIncomplete "k" [0]).1
      = .error (.InternalError "Data for key k is marked as incomplete")
    ∧ (fetch_op fdepsOk idxIncomplete "k" [0]).1 ≠ .error (.UploadIncomplete "k") := by
  decide

/-- C4 amended: for every key whose `KeyInfo` has `is_complete = false`,
`fetch_op` fails (returns no data), but with
`InternalError ("Data for key ... is marked as incomplete")` rather than
`UploadIncomplete`. -/
theorem fetch_op_incomplete_fails_internal_error (deps : FetchDeps)
    (idx : MasterIndex) (key : String) (order : List Nat) (ki : KeyInfo)
    (hki : get_key_info_internal idx key = some ki)
    (hic : ki.is_complete = false) :
    (fetch_op deps idx key order).1
      = .error (.InternalError ("Data for key " ++ key ++ " is marked as incomplete")) := by
  unfold fetch_op
  rw [show get_key_info_internal idx key = some ki from hki]
  simp [hic]

/-- C4 witness: the amended theorem applied at the concrete incomplete
index. -/
theorem fetch_op_incomplete_fails_internal_error_witness :
    (fetch_op fdepsOk idxIncomplete "k" [0]).1
      = .error (.InternalError ("Data for key " ++ "k" ++ " is marked as incomplete")) :=
  fetch_op_incomplete_fails_internal_error fdepsOk idxIncomplete "k" [0]
    { pads := [{ address := 1, chunk_index := 0, status := .Written }]
      data_size := 4, modified := 0, is_complete := false, populated_pads_count := 0 }
    (by decide) (by decide)

/-! C5 -/

/-- C5 counterexample: moving the pad at address 5 of key "k" backward from
`Confirmed` to `Generated` succeeds and changes the stored status, where the
claim requires failure with `InconsistentState` and no change. -/
theorem update_pad_status_backward_succeeds :
    (update_pad_status_internal idxWithK "k" 5 .Generated).1 = .ok ()
    ∧ (get_key_info_internal (update_pad_status_internal idxWithK "k" 5 .Generated).2 "k").map
        (fun k2 => k2.pads.map PadInfo.status) = some [.Generated] := by
  decide

theorem find?_setPadStatusFirst (a : Addr) (s : PadStatus) :
    ∀ ps : List PadInfo, (ps.any fun p => p.address = a) = true →
      ((setPadStatusFirst ps a s).find? fun p => p.address = a).map PadInfo.status = some s := by
  intro ps h
  induction ps with
  | nil => simp at h
  | cons p ps ih =>
      by_cases hp : p.address = a
      · simp [setPadStatusFirst, hp, List.find?_cons_of_pos]
      · have h' : (ps.any fun q => q.address = a) = true := by
          simpa [List.any_cons, hp] using h
        simpa [setPadStatusFirst, hp, List.find?_cons_of_neg] using ih h'

/-- C5 amended: `update_pad_status_internal` performs no transition check at
all — whenever the key exists and the pad address is in its list, every
requested status (backward moves included) is applied unconditionally and
the call reports success; `InconsistentState` arises exactly when the key
exists but the pad is absent from it, `KeyNotFound` exactly when the key is
absent, and in both failure cases the index is returned unchanged. -/
theorem update_pad_status_internal_sets_unconditionally
    (idx : MasterIndex) (key : String) (a : Addr) (s : PadStatus) :
    (∀ ki, get_key_info_internal idx key = some ki →
      ((ki.pads.any fun p => p.address = a) = true →
        (update_pad_status_internal idx key a s).1 = .ok ()
        ∧ (get_key_info_internal (update_pad_status_internal idx key a s).2 key).map
            (fun k2 => (k2.pads.find? fun p => p.address = a).map PadInfo.status)
          = some (some s))
      ∧ ((ki.pads.any fun p => p.address = a) = false →
        update_pad_status_internal idx key a s
          = (.error (.InconsistentState ("Pad not found in key " ++ key)), idx)))
    ∧ (get_key_info_internal idx key = none →
      update_pad_status_internal idx key a s = (.error (.KeyNotFound key), idx)) := by
  constructor
  · intro ki hki
    have hl : mapLookup idx.index key = some ki := hki
    constructor
    · intro hp
      constructor
      · unfold update_pad_status_internal
        rw [hl]
        simp [hp]
      · unfold update_pad_status_internal
        rw [hl]
        simp [hp, get_key_info_internal, mapLookup_mapInsert,
          find?_setPadStatusFirst a s ki.pads hp]
    · intro hp
      unfold update_pad_status_internal
      rw [hl]
      simp [hp]
  · intro hnone
    have hl : mapLookup idx.index key = none := hnone
    unfold update_pad_status_internal
    rw [hl]

/-- C5 witness: the theorem at the concrete index `idxWithK` — a backward
move `Confirmed` to `Allocated` on the present pad 5 succeeds and is
recorded; pad 6 is not in key "k", giving `InconsistentState` with the
index unchanged; key "nokey" is absent, giving `KeyNotFound` with the
index unchanged. -/
theorem update_pad_status_internal_sets_unconditionally_witness :
    ((update_pad_status_internal idxWithK "k" 5 .Allocated).1 = .ok ()
      ∧ (get_key_info_internal (update_pad_status_internal idxWithK "k" 5 .Allocated).2 "k").map
          (fun k2 => (k2.pads.find? fun p => p.address = 5).map PadInfo.status)
        = some (some .Allocated))
    ∧ update_pad_status_internal idxWithK "k" 6 .Allocated
        = (.error (.InconsistentState ("Pad not found in key " ++ "k")), idxWithK)
    ∧ update_pad_status_internal idxWithK "nokey" 5 .Allocated
        = (.error (.KeyNotFound "nokey"), idxWithK) :=
  ⟨((update_pad_status_internal_sets_unconditionally idxWithK "k" 5 .Allocated).1 kiOld
      (by decide)).1 (by decide),
   ((update_pad_status_internal_sets_unconditionally idxWithK "k" 6 .Allocated).1 kiOld
      (by decide)).2 (by decide),
   (update_pad_status_internal_sets_unconditionally idxWithK "nokey" 5 .Allocated).2
     (by decide)⟩

/-! C6 -/

/-- C6 counterexample: address 1 is already pending, yet
`add_pending_pads_internal` appends a second entry for it — the index state
changes, where the claim requires it to stay unchanged for every insertion
operation on the two lists. -/
theorem add_pending_pads_duplicate_changes_state :
    (add_pending_pads_internal idxBoth [(1, 20)]).2 ≠ idxBoth
    ∧ (add_pending_pads_internal idxBoth [(1, 20)]).2.pending_verification_pads
        = [(1, 10), (1, 20)] := by
  decide

/-- C6 amended: a duplicate address is silently dropped by the free-pad
inserts (single and batch) and by `add_pending_verification_pads_internal`,
leaving the index unchanged; `add_pending_pads_internal`, however, extends
the pending-verification list unconditionally, so a duplicate address is
appended, not dropped. -/
theorem duplicate_pad_insert_spec (idx : MasterIndex) (a : Addr)
    (kb kb2 kb3 : KeyBytes) (c c2 : Nat)
    (hf : (idx.free_pads.any fun t => t.1 = a) = true)
    (hp : (idx.pending_verification_pads.any fun t => t.1 = a) = true) :
    add_free_pad_with_counter_internal idx a kb c = (.ok (), idx)
    ∧ add_free_pads_with_counters_internal idx [(a, kb, c2)] = (.ok (), idx)
    ∧ add_pending_verification_pads_internal idx [(a, kb2)] = (.ok (), idx)
    ∧ (add_pending_pads_internal idx [(a, kb3)]).2.pending_verification_pads
        = idx.pending_verification_pads ++ [(a, kb3)] := by
  refine ⟨?_, ?_, ?_, ?_⟩ <;>
    simp [add_free_pad_with_counter_internal, add_free_pads_with_counters_internal,
      add_pending_verification_pads_internal, add_pending_pads_internal, hf, hp]

/-- C6 witness: the amended theorem at the concrete index `idxBoth` whose
address 1 is on both lists. -/
theorem duplicate_pad_insert_spec_witness :
    add_free_pad_with_counter_internal idxBoth 1 99 7 = (.ok (), idxBoth)
    ∧ add_free_pads_with_counters_internal idxBoth [(1, 99, 8)] = (.ok (), idxBoth)
    ∧ add_pending_verification_pads_internal idxBoth [(1, 98)] = (.ok (), idxBoth)
    ∧ (add_pending_pads_internal idxBoth [(1, 97)]).2.pending_verification_pads
        = idxBoth.pending_verification_pads ++ [(1, 97)] :=
  duplicate_pad_insert_spec idxBoth 1 99 98 97 7 8 (by decide) (by decide)

/-! C9 -/

/-- C9 counterexample: resetting an index whose `scratchpad_size` is 0 does
not preserve the value — the reset installs the (positive) default size. -/
theorem reset_index_changes_small_size :
    (reset_index_internal
        { index := [], free_pads := [], pending_verification_pads := []
          scratchpad_size := 0 }).scratchpad_size ≠ 0 := by
  decide

/-- C9 amended: `reset_index_internal` empties the key map, the free list
and the pending list, and sets `scratchpad_size` to the maximum of its prior
value and `DEFAULT_SCRATCHPAD_SIZE`; the prior value is preserved exactly
when it is at least the default. -/
theorem reset_index_internal_spec (idx : MasterIndex) :
    (reset_index_internal idx).index = []
    ∧ (reset_index_internal idx).free_pads = []
    ∧ (reset_index_internal idx).pending_verification_pads = []
    ∧ (reset_index_internal idx).scratchpad_size
        = max idx.scratchpad_size DEFAULT_SCRATCHPAD_SIZE
    ∧ (DEFAULT_SCRATCHPAD_SIZE ≤ idx.scratchpad_size →
        (reset_index_internal idx).scratchpad_size = idx.scratchpad_size) := by
  refine ⟨rfl, rfl, rfl, rfl, fun h => ?_⟩
  simpa [reset_index_internal] using Nat.max_eq_left h

/-- C9 witness: the amended theorem at an index whose size exceeds the
default. -/
theorem reset_index_internal_spec_witness :
    (reset_index_internal
        { index := [], free_pads := [], pending_verification_pads := []
          scratchpad_size := 5000000 }).scratchpad_size = 5000000 :=
  (reset_index_internal_spec
      { index := [], free_pads := [], pending_verification_pads := []
        scratchpad_size := 5000000 }).2.2.2.2 (by decide)

/-! C8 -/

/-- C8: at the failing input — client initialization succeeds, the pad
already exists so create is refused with an already-exists error, update
succeeds — `put_raw` silently falls back to update and SUCCEEDS with the
derived address.  The claim (and the spec, 6 and 9) requires failure with
`InconsistentState` here, and the repo agrees with the claim against this
code: `test_put_raw_create_fails_if_exists`
(`network/integration_tests.rs` lines 169-189) calls `put_raw` with a
`PadStatus::Generated` hint — a parameter this `put_raw` does not even
take — and asserts the result is `Err(NetworkError::InconsistentState)`. -/
theorem put_raw_create_existing_succeeds :
    put_raw netDepsExists 42 = .ok 42 := by
  decide

/-! C7: the chunker -/

theorem chunksOfF_nil (fuel k : Nat) : chunksOfF fuel k [] = [] := by
  cases fuel <;> rfl

theorem chunksOfF_ne_nil (fuel k : Nat) (d : List Nat) (hd : d ≠ [])
    (hle : d.length ≤ fuel) : chunksOfF fuel k d ≠ [] := by
  cases fuel with
  | zero => cases d with
      | nil => exact absurd rfl hd
      | cons x xs => simp at hle
  | succ fuel => cases d with
      | nil => exact absurd rfl hd
      | cons x xs => simp [chunksOfF]

theorem ceil_div_step (len k : Nat) (hk : k ≠ 0) (hlen : len ≠ 0) :
    (len - k + k - 1) / k + 1 = (len + k - 1) / k := by
  rcases le_or_lt len k with h | h
  · have h0 : len - k = 0 := by omega
    have e1 : len - k + k - 1 = k - 1 := by omega
    have e2 : len + k - 1 = (len - 1) + k := by omega
    rw [e1, e2, Nat.div_eq_of_lt (by omega : k - 1 < k),
      Nat.add_div_right _ (Nat.pos_of_ne_zero hk),
      Nat.div_eq_of_lt (by omega : len - 1 < k)]
  · have hpos := Nat.pos_of_ne_zero hk
    have e1 : len - k + k - 1 = (len - k - 1) + k := by omega
    have e2 : len + k - 1 = (len - 1) + k := by omega
    have e3 : len - 1 = (len - k - 1) + k := by omega
    rw [e1, Nat.add_div_right _ hpos, e2, Nat.add_div_right _ hpos, e3,
      Nat.add_div_right _ hpos]

theorem chunksOfF_length (k : Nat) (hk : k ≠ 0) :
    ∀ (fuel : Nat) (data : List Nat), data.length ≤ fuel →
      (chunksOfF fuel k data).length = (data.length + k - 1) / k := by
  intro fuel
  induction fuel with
  | zero =>
      intro data hle
      cases data with
      | nil => simp [chunksOfF_nil, Nat.div_eq_of_lt (by omega : k - 1 < k)]
      | cons x xs => simp at hle
  | succ fuel ih =>
      intro data hle
      cases data with
      | nil => simp [chunksOfF_nil, Nat.div_eq_of_lt (by omega : k - 1 < k)]
      | cons x xs =>
          have hle2 : xs.length + 1 ≤ fuel + 1 := by simpa using hle
          have hdl : ((x :: xs).drop k).length ≤ fuel := by
            rw [List.length_drop]
            simp only [List.length_cons]
            omega
          simp only [chunksOfF, List.length_cons]
          rw [ih ((x :: xs).drop k) hdl, List.length_drop]
          simp only [List.length_cons]
          exact ceil_div_step (xs.length + 1) k hk (by omega)

theorem chunksOfF_dropLast_mem (k : Nat) (hk : k ≠ 0) :
    ∀ (fuel : Nat) (data : List Nat), data.length ≤ fuel →
      ∀ c ∈ (chunksOfF fuel k data).dropLast, c.length = k := by
  intro fuel
  induction fuel with
  | zero =>
      intro data hle c hc
      cases data with
      | nil => simp [chunksOfF_nil] at hc
      | cons x xs => simp at hle
  | succ fuel ih =>
      intro data hle c hc
      cases data with
      | nil => simp [chunksOfF_nil] at hc
      | cons x xs =>
          have hle2 : xs.length + 1 ≤ fuel + 1 := by simpa using hle
          have hdl : ((x :: xs).drop k).length ≤ fuel := by
            rw [List.length_drop]
            simp only [List.length_cons]
            omega
          simp only [chunksOfF] at hc
          cases hrest : chunksOfF fuel k ((x :: xs).drop k) with
          | nil => rw [hrest] at hc; simp at hc
          | cons r rs =>
              rw [hrest, List.dropLast_cons₂] at hc
              have hd : (x :: xs).drop k ≠ [] := by
                intro h0
                rw [h0, chunksOfF_nil] at hrest
                exact List.noConfusion hrest
              have hklt : k < xs.length + 1 := by
                rcases le_or_lt (xs.length + 1) k with h0 | h0
                · exact absurd (List.drop_eq_nil_of_le (by simpa using h0)) hd
                · exact h0
              rcases List.mem_cons.mp hc with hc1 | hc2
              · subst hc1
                rw [List.length_take]
                simp only [List.length_cons]
                omega
              · refine ih ((x :: xs).drop k) hdl c ?_
                rw [hrest]
                exact hc2

theorem chunksOfF_getLast_length (k : Nat) (hk : k ≠ 0) :
    ∀ (fuel : Nat) (data : List Nat), data ≠ [] → data.length ≤ fuel →
      (chunksOfF fuel k data).getLast?.map List.length
        = some (data.length - ((chunksOfF fuel k data).length - 1) * k) := by
  intro fuel
  induction fuel with
  | zero =>
      intro data hd hle
      cases data with
      | nil => exact absurd rfl hd
      | cons x xs => simp at hle
  | succ fuel ih =>
      intro data hd hle
      cases data with
      | nil => exact absurd rfl hd
      | cons x xs =>
          have hle2 : xs.length + 1 ≤ fuel + 1 := by simpa using hle
          have hdl : ((x :: xs).drop k).length ≤ fuel := by
            rw [List.length_drop]
            simp only [List.length_cons]
            omega
          simp only [chunksOfF]
          cases hrest : chunksOfF fuel k ((x :: xs).drop k) with
          | nil =>
              have hd2 : (x :: xs).drop k = [] := by
                by_contra h0
                exact chunksOfF_ne_nil fuel k _ h0 hdl hrest
              have hlek : xs.length + 1 ≤ k := by
                have hh := List.drop_eq_nil_iff.mp hd2
                simpa using hh
              simp [List.length_take]
              omega
          | cons r rs =>
              rw [List.getLast?_cons_cons]
              have hd2 : (x :: xs).drop k ≠ [] := by
                intro h0
                rw [h0, chunksOfF_nil] at hrest
                exact List.noConfusion hrest
              have hklt : k < xs.length + 1 := by
                rcases le_or_lt (xs.length + 1) k with h0 | h0
                · exact absurd (List.drop_eq_nil_of_le (by simpa using h0)) hd2
                · exact h0
              have hlen := ih ((x :: xs).drop k) hd2 hdl
              rw [hrest] at hlen
              rw [hlen]
              congr 1
              rw [List.length_drop]
              simp only [List.length_cons, Nat.add_sub_cancel]
              have hmul : (rs.length + 1) * k = rs.length * k + k := Nat.succ_mul _ _
              rw [hmul]
              generalize rs.length * k = a
              omega

/-- C7: `chunk_data` fails with `ChunkingError` exactly for pad size zero,
maps empty data to the empty sequence, and otherwise produces
ceil(len/k) chunks whose first N-1 elements have length exactly k while
the last holds the remaining bytes. -/
theorem chunk_data_spec (data : List Nat) (k : Nat) :
    chunk_data data 0 = .error (.ChunkingError "Chunk size cannot be zero")
    ∧ (k ≠ 0 → chunk_data [] k = .ok [])
    ∧ (k ≠ 0 → ∃ cs, chunk_data data k = .ok cs
        ∧ cs.length = (data.length + k - 1) / k
        ∧ (∀ c ∈ cs.dropLast, c.length = k)
        ∧ (data ≠ [] → cs.getLast?.map List.length
            = some (data.length - (cs.length - 1) * k))) := by
  refine ⟨rfl, fun hk => ?_, fun hk => ?_⟩
  · simp [chunk_data, hk, chunksOfF_nil]
  · refine ⟨chunksOfF data.length k data, by simp [chunk_data, hk], ?_, ?_, ?_⟩
    · exact chunksOfF_length k hk data.length data le_rfl
    · exact chunksOfF_dropLast_mem k hk data.length data le_rfl
    · intro hd
      rw [chunksOfF_getLast_length k hk data.length data hd le_rfl,
        chunksOfF_length k hk data.length data le_rfl]

/-- C7 witness: the theorem at the pinned test input (`test_chunking_basic`
uses ten bytes at size 3; here four bytes at size 3 give chunks
[1,2,3] and [4]). -/
theorem chunk_data_spec_witness :
    chunk_data ([1, 2, 3, 4] : List Nat) 3 = .ok [[1, 2, 3], [4]]
    ∧ ∃ cs, chunk_data ([1, 2, 3, 4] : List Nat) 3 = .ok cs
        ∧ cs.length = 2
        ∧ (∀ c ∈ cs.dropLast, c.length = 3)
        ∧ cs.getLast?.map List.length = some 1 := by
  constructor
  · decide
  · obtain ⟨cs, h1, h2, h3, h4⟩ := (chunk_data_spec [1, 2, 3, 4] 3).2.2 (by decide)
    refine ⟨cs, h1, by rw [h2]; decide, h3, ?_⟩
    rw [h4 (by decide), h2]
    decide

/-! C1 and C3: store_op -/

theorem chunk_data_error (d : List Nat) (k : Nat) (e : DataError)
    (h : chunk_data d k = .error e) :
    e = .ChunkingError "Chunk size cannot be zero" := by
  unfold chunk_data at h
  split at h
  · exact (Except.error.inj h).symm
  · exact absurd h (by simp)

theorem store_write_loop_pair_no_kae (deps : StoreDeps)
    (acq : List (Addr × KeyBytes)) (pil : List PadInfo) (chunks : List (List Nat))
    (order : List Nat) (pop : Nat) (idx : MasterIndex) (e : DataError)
    (idx2 : MasterIndex) (s : String)
    (h : store_write_loop deps acq pil chunks order pop idx = (.error e, idx2)) :
    e ≠ .KeyAlreadyExists s := by
  induction order generalizing pop idx with
  | nil => simp [store_write_loop] at h
  | cons i rest ih =>
      rw [store_write_loop] at h
      split at h
      · split at h
        · exact fun hk => by simp [cbErr, hk] at h
        · exact fun hk => by simp [hk] at h
        · exact ih _ _ h
      · exact fun hk => by simp [hk] at h

/-- C1 counterexample: an index already holding key "k"; `store_op` on "k"
succeeds (no `KeyAlreadyExists`) and the stored `KeyInfo` is replaced. -/
theorem store_op_overwrites_existing_key :
    (store_op depsOk idxWithK "k" [9, 9] [0]).1 = .ok ()
    ∧ get_key_info_internal (store_op depsOk idxWithK "k" [9, 9] [0]).2 "k" ≠ some kiOld := by
  decide

/-- C1 amended: `store_op` performs no duplicate-key check at all: it never
fails with `KeyAlreadyExists`, and whenever it succeeds (the user key being
present beforehand or not) the key is bound to the freshly built `KeyInfo`
for the new payload — an existing binding is replaced, not protected. -/
theorem store_op_no_duplicate_check (deps : StoreDeps) (idx : MasterIndex)
    (key : String) (data : List Nat) (order : List Nat) (s : String) :
    (store_op deps idx key data order).1 ≠ .error (.KeyAlreadyExists s)
    ∧ ((store_op deps idx key data order).1 = .ok () →
        (get_key_info_internal (store_op deps idx key data order).2 key).map
          KeyInfo.data_size = some data.length) := by
  constructor
  · unfold store_op
    dsimp only
    repeat' split
    all_goals intro hc
    all_goals first
      | (simp [cbErr] at hc; done)
      | (rename_i e heq
         have hce := chunk_data_error _ _ _ heq
         subst hce
         simp at hc)
      | (rename_i e idx2 heq
         have hnk := store_write_loop_pair_no_kae _ _ _ _ _ _ _ _ _ s heq
         simp at hc
         exact hnk hc)
  · unfold store_op
    dsimp only
    repeat' split
    all_goals intro hok
    all_goals first
      | (simp at hok; done)
      | simp [insert_key_info_internal, get_key_info_internal, mapLookup_mapInsert]

/-- C1 witness: the amended theorem at the concrete pre-populated index. -/
theorem store_op_no_duplicate_check_witness :
    (store_op depsOk idxWithK "k" [9, 9] [0]).1 ≠ .error (.KeyAlreadyExists "k")
    ∧ (get_key_info_internal (store_op depsOk idxWithK "k" [9, 9] [0]).2 "k").map
        KeyInfo.data_size = some 2 :=
  ⟨(store_op_no_duplicate_check depsOk idxWithK "k" [9, 9] [0] "k").1,
   (store_op_no_duplicate_check depsOk idxWithK "k" [9, 9] [0] "k").2 (by decide)⟩

/-- C3 counterexample: a successful two-byte store leaves
`is_complete = true` in the index, not `false` as the claim states. -/
theorem store_op_marks_complete_true :
    (store_op depsOk idxEmpty "k" [1, 2] [0]).1 = .ok ()
    ∧ (get_key_info_internal (store_op depsOk idxEmpty "k" [1, 2] [0]).2 "k").map
        KeyInfo.is_complete = some true
    ∧ (get_key_info_internal (store_op depsOk idxEmpty "k" [1, 2] [0]).2 "k").map
        KeyInfo.is_complete ≠ some false := by
  decide

/-- C3 amended: for every non-empty payload, when `store_op` returns
successfully the `KeyInfo` it leaves in the master index has
`is_complete = true` (the source sets it on the assumption that all writes
succeeded; no later verification step is awaited). -/
theorem store_op_success_is_complete (deps : StoreDeps) (idx : MasterIndex)
    (key : String) (data : List Nat) (order : List Nat)
    (hne : data ≠ [])
    (hok : (store_op deps idx key data order).1 = .ok ()) :
    (get_key_info_internal (store_op deps idx key data order).2 key).map
      KeyInfo.is_complete = some true := by
  clear hne
  revert hok
  unfold store_op
  dsimp only
  repeat' split
  all_goals intro hok
  all_goals first
    | (simp at hok; done)
    | simp [insert_key_info_internal, get_key_info_internal, mapLookup_mapInsert]

/-- C3 witness: the amended theorem at a concrete successful store. -/
theorem store_op_success_is_complete_witness :
    (get_key_info_internal (store_op depsOk idxEmpty "k2" [3, 4, 5] [0]).2 "k2").map
      KeyInfo.is_complete = some true :=
  store_op_success_is_complete depsOk idxEmpty "k2" [3, 4, 5] [0]
    (by decide) (by decide)

/-! C10 -/

/-- C10: `fetch_op` never modifies the master index — on every path (key
missing, incomplete data, any callback behaviour including cancellation and
callback failure, any storage outcome, reassembly failure, or success) the
state it returns is exactly the state it was given. -/
theorem fetch_op_preserves_index (deps : FetchDeps) (idx : MasterIndex)
    (key : String) (order : List Nat) :
    (fetch_op deps idx key order).2 = idx := by
  unfold fetch_op
  dsimp only
  repeat' split <;> try rfl

end MutAnt
